import Mathlib

/-!
Shallow embedding of the papunika-map-mirror program (src/main.ts, Deno/TypeScript).

The program mirrors https://papunika.com/map/ into a local static snapshot.
External collaborators (the Deno standard path utilities, the MD5 digest
primitive, `new URL` resolution, the filesystem and the network) are modelled
explicitly: pure ones as small Lean functions over `String`/`List Char`
mirroring their JS semantics on the inputs the program uses, and effectful
ones as explicit parameters (a directory-listing function for the filesystem,
a trace of fetch outcomes for the network).  JS strings are modelled as Lean
strings; the program only handles ASCII names, where the two coincide.
-/

/-! ## Basic JS string helpers -/

/-- Models JS `String.prototype.startsWith`. -/
def jsStartsWith (s pre : String) : Bool := pre.data.isPrefixOf s.data

/-- Models JS `String.prototype.endsWith`. -/
def jsEndsWith (s suf : String) : Bool := suf.data.isSuffixOf s.data

/-- Models JS `String.prototype.substring(n)` (ASCII inputs). -/
def jsSubstringFrom (s : String) (n : Nat) : String := String.mk (s.data.drop n)

/-- Whether `pat` occurs as a contiguous infix of `l`. -/
def listInfix (pat : List Char) : List Char → Bool
  | [] => pat.isEmpty
  | c :: rest => pat.isPrefixOf (c :: rest) || listInfix pat rest

/-- Models JS `String.prototype.includes` / substring containment. -/
def strContains (s pat : String) : Bool := listInfix pat.data s.data

/-- Characters matched by the JS regex `.` without the `s` flag. -/
def jsDotChar (c : Char) : Bool :=
  c ≠ '\n' && c ≠ '\r' && c.val ≠ 0x2028 && c.val ≠ 0x2029

/-- One step of JS `String.prototype.replaceAll` with a plain-string pattern:
left-to-right scan, non-overlapping replacement.  Fuelled so that the kernel
can evaluate it; `fuel = s.length` always suffices since every step consumes
at least one character of the input. -/
def strReplaceAllAux (pat rep : List Char) : Nat → List Char → List Char
  | _, [] => []
  | 0, l => l
  | fuel + 1, c :: rest =>
    if pat.isPrefixOf (c :: rest) then
      rep ++ strReplaceAllAux pat rep fuel (rest.drop (pat.length - 1))
    else
      c :: strReplaceAllAux pat rep fuel rest

/-- Models JS `String.prototype.replaceAll` for a non-empty plain-string
pattern (every pattern used by the program starts with the literal text
`url(` and is non-empty). -/
def strReplaceAll (s pat rep : String) : String :=
  if pat.data.isEmpty then s
  else String.mk (strReplaceAllAux pat.data rep.data s.data.length s.data)

/-- Models JS `String.prototype.replace` with a plain-string pattern:
replaces only the first occurrence. -/
def strReplaceFirstAux (pat rep : List Char) : List Char → List Char
  | [] => []
  | c :: rest =>
    if pat.isPrefixOf (c :: rest) then rep ++ rest.drop (pat.length - 1)
    else c :: strReplaceFirstAux pat rep rest

/-- Models JS `String.prototype.replace(pat, rep)` for non-empty string `pat`. -/
def strReplaceFirst (s pat rep : String) : String :=
  String.mk (strReplaceFirstAux pat.data rep.data s.data)

/-! ## Path utilities (model of the Deno std `path` module on POSIX paths) -/

/-- Drop leading `/` characters. -/
def trimLeadSlashes (l : List Char) : List Char := l.dropWhile (fun c => c = '/')

/-- Drop trailing `/` characters. -/
def trimTrailSlashes (l : List Char) : List Char :=
  (l.reverse.dropWhile (fun c => c = '/')).reverse

/-- Models `path.join(a, b)` for the separator-normal segments this program
joins (it does not resolve `.`/`..` segments, which never occur here). -/
def pathJoin (a b : String) : String :=
  if a = "" then b
  else if b = "" then a
  else String.mk (trimTrailSlashes a.data ++ '/' :: trimLeadSlashes b.data)

/-- Models `path.basename(p)`: the part of `p` after the last `/`. -/
def pathBasename (s : String) : String :=
  String.mk ((s.data.reverse.takeWhile (fun c => c ≠ '/')).reverse)

/-- Models `path.dirname(p)`. -/
def pathDirname (s : String) : String :=
  match s.data.reverse.dropWhile (fun c => c ≠ '/') with
  | [] => "."
  | _ :: rest => if rest = [] then "/" else String.mk rest.reverse

/-- Models `path.extname(p)`: from the last `.` of the basename, empty for
dotfiles and names without a dot. -/
def pathExtname (s : String) : String :=
  let r := (pathBasename s).data.reverse
  match r.dropWhile (fun c => c ≠ '.') with
  | [] => ""
  | _ :: before =>
    if before = [] then ""
    else String.mk ('.' :: (r.takeWhile (fun c => c ≠ '.')).reverse)

/-- Models `path.basename(p, ext)`: the basename with a trailing `ext`
stripped when the basename ends with, but is not equal to, `ext`. -/
def pathBasenameStrip (s ext : String) : String :=
  let b := pathBasename s
  if ext ≠ "" && jsEndsWith b ext && b ≠ ext then
    String.mk (b.data.take (b.length - ext.length))
  else b

/-! ## URL pathname (model of `new URL(u).pathname` for absolute http URLs) -/

/-- Return the suffix of `l` after the first occurrence of `pat`, if any. -/
def dropAfterFirstSub (pat : List Char) : List Char → Option (List Char)
  | [] => if pat.isEmpty then some [] else none
  | c :: rest =>
    if pat.isPrefixOf (c :: rest) then some ((c :: rest).drop pat.length)
    else dropAfterFirstSub pat rest

/-- Models `new URL(u).pathname` for the absolute `http(s)://host/...` URLs
the program feeds it: drops scheme and host, cuts the query and fragment. -/
def urlPathname (u : String) : String :=
  match dropAfterFirstSub "://".data u.data with
  | none => ""
  | some hostRest =>
    let p := (hostRest.dropWhile (fun c => c ≠ '/')).takeWhile
      (fun c => c ≠ '?' && c ≠ '#')
    if p = [] then "/" else String.mk p

/-! ## sanitizedBasename -/

/-- JS regex `\w` (ASCII word character). -/
def isWordChar (c : Char) : Bool := c.isAlphanum || c = '_'

/-- Try to match the JS regex `-\w+\.\w+\.\w+\.` at the head of `l`,
returning the remainder after the match. -/
def matchVersionSegAt (l : List Char) : Option (List Char) :=
  match l with
  | '-' :: rest =>
    if rest.takeWhile isWordChar = [] then none
    else
      match rest.dropWhile isWordChar with
      | '.' :: r2 =>
        if r2.takeWhile isWordChar = [] then none
        else
          match r2.dropWhile isWordChar with
          | '.' :: r4 =>
            if r4.takeWhile isWordChar = [] then none
            else
              match r4.dropWhile isWordChar with
              | '.' :: r6 => some r6
              | _ => none
          | _ => none
      | _ => none
  | _ => none

/-- Models the `.replace` of the regex `-\w+\.\w+\.\w+\.` with `'.'`:
replace the first (leftmost) match of the version-decoration regex with a
single dot. -/
def replaceVersionSeg : List Char → List Char
  | [] => []
  | c :: rest =>
    match matchVersionSegAt (c :: rest) with
    | some after => '.' :: after
    | none => c :: replaceVersionSeg rest

/-- Models `.replace(/@.*$/, '')`: strip from an `@` whose whole suffix is
matched by `.*$` (every remaining character matchable by the JS dot). -/
def stripAtSuffix : List Char → List Char
  | [] => []
  | c :: rest =>
    if c = '@' && rest.all jsDotChar then []
    else c :: stripAtSuffix rest

/-- Models `sanitizedBasename` from src/main.ts:
`path.basename(new URL(url).pathname)` with the first `.min.` replaced by
`.`, then the first match of the regex `-\w+\.\w+\.\w+\.` replaced by `.`,
then the regex `@.*$` stripped. -/
def sanitizedBasename (url : String) : String :=
  String.mk (stripAtSuffix (replaceVersionSeg
    (strReplaceFirst (pathBasename (urlPathname url)) ".min." ".").data))

/-! ## Program constants -/

/-- The fixed upstream origin from src/main.ts. -/
def origin : String := "https://papunika.com"

/-- `rootUrl = origin + '/map'` from src/main.ts. -/
def rootUrl : String := origin ++ "/map"

/-- `backoff(i) = Math.pow(2, i) * 250` from src/main.ts. -/
def backoff (i : Nat) : Nat := 2 ^ i * 250

/-! ## Fetch model -/

/-- Outcome of one `fetch(url)` call: either the promise resolves with a
response (status and body bytes), or it rejects (transport error). -/
inductive FetchOutcome where
  | resp (status : Nat) (body : List Nat)
  | transportError
deriving DecidableEq, Repr

/-- Errors that can be thrown inside a fetch-and-cache attempt.
`badStatus s` is the `BadStatusCodeError` thrown by `fetchSuccess`;
`transport` a rejected `fetch`; `mutateFailed` a throw inside the content
transform; `fsError` a throw from `Deno.mkdir`/`Deno.writeFile`. -/
inductive FetchErr where
  | badStatus (status : Nat)
  | transport
  | mutateFailed
  | fsError
deriving DecidableEq, Repr

/-- JS `Response.ok`: status in the inclusive range 200–299. -/
def resOk (status : Nat) : Bool := 200 ≤ status && status ≤ 299

/-- Models `fetchSuccess` from src/main.ts: returns the response if `res.ok`,
otherwise throws `BadStatusCodeError(res.status)`. -/
def fetchSuccess : FetchOutcome → Except FetchErr (Nat × List Nat)
  | .transportError => .error .transport
  | .resp s b => if resOk s then .ok (s, b) else .error (.badStatus s)

/-- Whether a caught error is `err instanceof BadStatusCodeError &&
err.status === 404` (the check in `tryPublicFetchOrCached`). -/
def isNotFound404 : FetchErr → Bool
  | .badStatus 404 => true
  | _ => false

/-! ## Cache Index: findExistingCachedFile -/

/-- The matching condition of the `for await` loop in
`findExistingCachedFile`:

`file.name === name + ext || file.name.startsWith(name) &&
 file.name.endsWith(ext) && file.name.length === name.length + ext.length + 33`. -/
def matchesCachedName (name ext fname : String) : Bool :=
  fname == name ++ ext ||
    (jsStartsWith fname name && jsEndsWith fname ext &&
      fname.length == name.length + ext.length + 33)

/-- Models the full overloaded `findExistingCachedFile(dir, name?, ext?)`.

The filesystem is a function from a directory to either its file listing or
the `err.name` of the enumeration failure.  Returns the found filename (the
first directory entry satisfying `matchesCachedName`, or `none`) together
with whether a warning was printed (`console.warn(err)` fires only when the
error name is neither `NotFound` nor `PermissionDenied`; every error is then
swallowed by the bare `return`). -/
def findExistingCachedFile (fs : String → Except String (List String))
    (dir : String) (name ext : Option String) : Option String × Bool :=
  let dn : String × String :=
    match name with
    | none => (pathDirname dir, pathBasename dir)
    | some n => if n = "" then (pathDirname dir, pathBasename dir) else (dir, n)
  let ne : String × String :=
    match ext with
    | none => (pathBasenameStrip dn.2 (pathExtname dn.2), pathExtname dn.2)
    | some e =>
      if e = "" then (pathBasenameStrip dn.2 (pathExtname dn.2), pathExtname dn.2)
      else (dn.2, e)
  match fs dn.1 with
  | .ok files => (files.find? (fun f => matchesCachedName ne.1 ne.2 f), false)
  | .error errName => (none, errName ≠ "NotFound" && errName ≠ "PermissionDenied")

/-! ## Run configuration -/

/-- The run configuration bits consulted by the two caching functions:
`canReuseCache` (read permission granted) and `refresh` (`--refresh` flag). -/
structure MirrorConfig where
  canReuseCache : Bool
  refresh : Bool
deriving DecidableEq, Repr

/-- `shouldDownloadTiles = !Deno.args.includes('--no-tiles')`. -/
def shouldDownloadTiles (args : List String) : Bool := !args.contains "--no-tiles"

/-- `shouldDownloadAssets = !Deno.args.includes('--no-assets')`. -/
def shouldDownloadAssets (args : List String) : Bool := !args.contains "--no-assets"

/-- `shouldDownloadZones = !Deno.args.includes('--no-zones')`. -/
def shouldDownloadZones (args : List String) : Bool := !args.contains "--no-zones"

/-- `refresh = Deno.args.includes('--refresh')`. -/
def refreshFlag (args : List String) : Bool := args.contains "--refresh"

/-! ## cacheResourceFile -/

/-- The logical extension cacheResourceFile derives from a URL:
`path.extname(sanitizedBasename(url))`. -/
def cacheExtname (url : String) : String := pathExtname (sanitizedBasename url)

/-- The logical filename cacheResourceFile derives from a URL:
`path.basename(sanitizedBasename(url), extname)`. -/
def cacheFilename (url : String) : String :=
  pathBasenameStrip (sanitizedBasename url) (cacheExtname url)

/-- Inputs consumed by one iteration of the retry loop in
`cacheResourceFile`: the outcome of its `fetch` call, and whether the
filesystem operations (`Deno.mkdir` + `Deno.writeFile`) succeed. -/
structure CacheAttempt where
  fetch : FetchOutcome
  fsOk : Bool
deriving DecidableEq, Repr

/-- The body of one `try` block of the retry loop in `cacheResourceFile`:
`fetchSuccess`, then the optional `mutate` transform (a throw inside it is
modelled by the mutator returning `none`), then the write.  Returns the
final byte content on success, or the thrown error. -/
def runCacheAttempt (mutate : Option (String → List Nat → Option (List Nat)))
    (url : String) (a : CacheAttempt) : Except FetchErr (List Nat) :=
  match fetchSuccess a.fetch with
  | .error e => .error e
  | .ok sb =>
    match mutate with
    | none => if a.fsOk then .ok sb.2 else .error .fsError
    | some m =>
      match m url sb.2 with
      | none => .error .mutateFailed
      | some c => if a.fsOk then .ok c else .error .fsError

/-- Result of a `cacheResourceFile` run over a finite trace of attempts:
the returned served path (`none` when the trace is exhausted while the
retry loop is still running), the number of `fetch` calls performed, and
the files written (path and final byte content). -/
structure CacheRun where
  result : Option String
  fetches : Nat
  writes : List (String × List Nat)
deriving DecidableEq, Repr

/-- The `while (true)` retry loop of `cacheResourceFile`.  On a successful
attempt it writes `filename + '-' + md5hex(contents) + extname` under
`writedir` and returns the path under `pfx`; on any caught error it returns
the stale cached path when `existing` was found, and otherwise sleeps
(`backoff`) and retries with the next attempt of the trace. -/
def cacheLoop (md5hex : List Nat → String) (existing : Option String)
    (pfx writedir filename ename url : String)
    (mutate : Option (String → List Nat → Option (List Nat))) :
    List CacheAttempt → CacheRun
  | [] => ⟨none, 0, []⟩
  | a :: rest =>
    match runCacheAttempt mutate url a with
    | .ok contents =>
      let filenameWithHash := filename ++ "-" ++ md5hex contents ++ ename
      ⟨some (pathJoin pfx filenameWithHash), 1,
        [(pathJoin writedir filenameWithHash, contents)]⟩
    | .error _ =>
      match existing with
      | some e => ⟨some (pathJoin pfx e), 1, []⟩
      | none =>
        let r := cacheLoop md5hex existing pfx writedir filename ename url mutate rest
        ⟨r.result, r.fetches + 1, r.writes⟩

/-- Models `cacheResourceFile(url, prefix, mutate?)` from src/main.ts.
The MD5-hex digest primitive (`createHash('md5')...toString('hex')`) is an
external collaborator passed in as `md5hex`; the filesystem directory
listing as `fs`; the network as the `trace` of fetch outcomes. -/
def cacheResourceFile (md5hex : List Nat → String) (cfg : MirrorConfig)
    (fs : String → Except String (List String)) (outdir url pfx : String)
    (mutate : Option (String → List Nat → Option (List Nat)))
    (trace : List CacheAttempt) : CacheRun :=
  let filename := cacheFilename url
  let ename := cacheExtname url
  let writedir := pathJoin outdir pfx
  let existing : Option String :=
    if cfg.canReuseCache then
      (findExistingCachedFile fs writedir (some filename) (some ename)).1
    else none
  match existing, cfg.refresh with
  | some e, false => ⟨some (pathJoin pfx e), 0, []⟩
  | some e, true => cacheLoop md5hex (some e) pfx writedir filename ename url mutate trace
  | none, _ => cacheLoop md5hex none pfx writedir filename ename url mutate trace

/-! ## fetchRootPage -/

/-- Models `fetchRootPage`: retry `fetchSuccess(rootUrl)` forever, returning
the body text together with the number of `fetch` calls performed.  There is
no cache consultation of any kind in this function. -/
def fetchRootPageRun : List FetchOutcome → Option (List Nat × Nat)
  | [] => none
  | f :: rest =>
    match fetchSuccess f with
    | .ok sb => some (sb.2, 1)
    | .error _ => (fetchRootPageRun rest).map (fun r => (r.1, r.2 + 1))

/-! ## tryPublicFetchOrCached -/

/-- Observable outcome of a `tryPublicFetchOrCached` call. -/
inductive TryOut where
  | badUrl
  | reusedCache
  | fetched (body : List Nat)
  | notFoundSkipped
  | reusedStaleAfterError
  | exhausted
deriving DecidableEq, Repr

/-- Result of a `tryPublicFetchOrCached` run: its outcome plus effect
counters (number of `fetch` calls, files written, directory enumerations
performed by the Cache Index, and `Deno.readFile` calls). -/
structure TryRun where
  out : TryOut
  fetches : Nat
  writes : List (String × List Nat)
  dirListings : Nat
  fileReads : Nat
deriving DecidableEq, Repr

/-- The destination filepath of `tryPublicFetchOrCached`:
`path.join(outdir, url.substring((url.startsWith(rootUrl) ? rootUrl : origin).length))`. -/
def tryFilepath (outdir url : String) : String :=
  pathJoin outdir (jsSubstringFrom url
    (if jsStartsWith url rootUrl then rootUrl.length else origin.length))

/-- The `while (true)` retry loop of `tryPublicFetchOrCached`.  A caught
`BadStatusCodeError` with status 404 is terminal (`url not found` warning,
plain return); any other caught error falls back to the stale cached file
when `existing` was found, and otherwise sleeps and retries. -/
def tryLoop (existing : Option String) (filepath : String) (parse : Bool) :
    List FetchOutcome → TryRun
  | [] => ⟨.exhausted, 0, [], 0, 0⟩
  | f :: rest =>
    match fetchSuccess f with
    | .ok sb => ⟨.fetched sb.2, 1, [(filepath, sb.2)], 0, 0⟩
    | .error e =>
      if isNotFound404 e then ⟨.notFoundSkipped, 1, [], 0, 0⟩
      else
        match existing with
        | some _ => ⟨.reusedStaleAfterError, 1, [], 0, if parse then 1 else 0⟩
        | none =>
          let r := tryLoop existing filepath parse rest
          ⟨r.out, r.fetches + 1, r.writes, r.dirListings, r.fileReads⟩

/-- Models `tryPublicFetchOrCached(url, parse?)` from src/main.ts.  The
guard `if (!url.startsWith(origin)) throw new Error('bad url: ' + url)` runs
before any filesystem or network effect. -/
def tryPublicFetchOrCached (cfg : MirrorConfig)
    (fs : String → Except String (List String)) (outdir url : String)
    (parse : Bool) (trace : List FetchOutcome) : TryRun :=
  if jsStartsWith url origin then
    let filepath := tryFilepath outdir url
    let dl : Nat := if cfg.canReuseCache then 1 else 0
    let existing : Option String :=
      if cfg.canReuseCache then
        (findExistingCachedFile fs filepath none none).1
      else none
    match existing, cfg.refresh with
    | some _, false => ⟨.reusedCache, 0, [], dl, if parse then 1 else 0⟩
    | some e, true =>
      let r := tryLoop (some e) filepath parse trace
      ⟨r.out, r.fetches, r.writes, r.dirListings + dl, r.fileReads⟩
    | none, _ =>
      let r := tryLoop none filepath parse trace
      ⟨r.out, r.fetches, r.writes, r.dirListings + dl, r.fileReads⟩
  else ⟨.badUrl, 0, [], 0, 0⟩

/-! ## Tile enumeration and the main-flow tile toggles -/

/-- The overworld tile URL template from src/main.ts. -/
def overworldTileUrl (zoom x y : Nat) : String :=
  "https://papunika.com/map/public/tiles/overworld/" ++ toString zoom ++ "_" ++
    toString x ++ "_" ++ toString y ++ ".jpg"

/-- The per-zone tile URL template from src/main.ts. -/
def zoneTileUrl (id : String) (zoom x y : Nat) : String :=
  rootUrl ++ "/public/tiles/zones/" ++ id ++ "/" ++ toString zoom ++ "_" ++
    toString x ++ "_" ++ toString y ++ ".png"

/-- The asset URL template from src/main.ts. -/
def assetUrl (a : String) : String := rootUrl ++ "/assets/" ++ a ++ ".png"

/-- Models `downloadTiles(url, maxZoom)`: the list of tile URLs it passes to
`tryPublicFetchOrCached`, in enumeration order — for each `zoom` in
`0 .. maxZoom - 1`, a `2^zoom × 2^zoom` grid of `(x, y)` coordinates. -/
def downloadTilesUrls (url : Nat → Nat → Nat → String) (maxZoom : Nat) :
    List String :=
  (List.range maxZoom).flatMap (fun zoom =>
    (List.range (2 ^ zoom)).flatMap (fun x =>
      (List.range (2 ^ zoom)).map (fun y => url zoom x y)))

/-- The overworld tile URLs the main flow enumerates:
`if (shouldDownloadTiles) await Promise.all(downloadTiles(overworld, 6))`. -/
def mainOverworldTileUrls (args : List String) : List String :=
  if shouldDownloadTiles args then downloadTilesUrls overworldTileUrl 6 else []

/-- The per-zone tile URLs the main flow enumerates: inside the
`if (shouldDownloadZones)` block, each zone contributes
`...(shouldDownloadTiles ? downloadTiles(zoneTiles(id), 4) : [])`. -/
def mainZoneTileUrls (args : List String) (zoneIds : List String) : List String :=
  if shouldDownloadZones args then
    zoneIds.flatMap (fun id =>
      if shouldDownloadTiles args then downloadTilesUrls (zoneTileUrl id) 4 else [])
  else []

/-! ## Base64 (model of the std `encoding/base64` encoder, RFC 4648) -/

/-- The standard base64 alphabet. -/
def base64Alphabet : List Char :=
  "ABCDEFGHIJKLMNOPQRSTUVWXYZabcdefghijklmnopqrstuvwxyz0123456789+/".data

/-- The base64 digit for a 6-bit value. -/
def base64Char (n : Nat) : Char := base64Alphabet.getD n 'A'

/-- Base64-encode a byte sequence (values < 256), with `=` padding. -/
def base64Encode : List Nat → List Char
  | [] => []
  | [b0] => [base64Char (b0 / 4 % 64), base64Char (b0 % 4 * 16), '=', '=']
  | [b0, b1] =>
    [base64Char (b0 / 4 % 64), base64Char (b0 % 4 * 16 + b1 / 16 % 16),
      base64Char (b1 % 16 * 4), '=']
  | b0 :: b1 :: b2 :: rest =>
    base64Char (b0 / 4 % 64) :: base64Char (b0 % 4 * 16 + b1 / 16 % 16) ::
      base64Char (b1 % 16 * 4 + b2 / 64 % 4) :: base64Char (b2 % 64) ::
        base64Encode rest

/-! ## The CSS url(...) reference scanner

Model of the JS global regex match
`s.matchAll` of `url\((?:"|')?((?!data:).+?)(?:"|')?\)` — after the literal
`url(`, an optional greedy quote, a negative lookahead rejecting captures
that start with `data:`, a lazy non-empty capture of dot-matchable
characters, an optional greedy quote, and the closing parenthesis, with the
usual leftmost-match, continue-after-match-end global scan. -/

/-- Whether a character is one of the quote characters of the regex. -/
def isCssQuote (c : Char) : Bool := c = '"' || c = '\''

/-- The closing part of the regex at a candidate capture end: a greedy
optional quote followed by `)`.  Returns the text after the match end. -/
def cssCloseAt : List Char → Option (List Char)
  | [] => none
  | c :: rest =>
    if isCssQuote c then
      match rest with
      | ')' :: rest2 => some rest2
      | _ => none
    else if c = ')' then some rest else none

/-- The lazy capture `.+?`: extend the capture one dot-matchable character
at a time, stopping at the first position where the closing part matches.
Returns the capture and the text after the whole match. -/
def cssLazyCapture : List Char → List Char → Option (List Char × List Char)
  | [], _ => none
  | c :: rest, acc =>
    if jsDotChar c then
      match cssCloseAt rest with
      | some after => some (acc ++ [c], after)
      | none => cssLazyCapture rest (acc ++ [c])
    else none

/-- Whether the text starts with `data:` (the negative lookahead). -/
def startsWithData (l : List Char) : Bool := "data:".data.isPrefixOf l

/-- Attempt the regex tail right after a literal `url(`: first with the
optional opening quote consumed, then (on failure, regex backtracking) with
it unconsumed; in each alternative the lookahead `(?!data:)` is checked at
the capture start. -/
def cssMatchAfterParen (l : List Char) : Option (List Char × List Char) :=
  match l with
  | c :: rest =>
    if isCssQuote c then
      match (if startsWithData rest then none else cssLazyCapture rest []) with
      | some r => some r
      | none => if startsWithData l then none else cssLazyCapture l []
    else if startsWithData l then none else cssLazyCapture l []
  | [] => none

/-- The global scan: at each position try to match `url(` followed by the
regex tail; on success record the capture and continue after the match end,
on failure advance one character.  Fuelled for kernel evaluation; every
step consumes at least one input character, so `fuel = length` suffices. -/
def extractCssUrlRefsAux : Nat → List Char → List (List Char)
  | _, [] => []
  | 0, _ => []
  | fuel + 1, c :: rest =>
    if "url(".data.isPrefixOf (c :: rest) then
      match cssMatchAfterParen ((c :: rest).drop 4) with
      | some capAfter => capAfter.1 :: extractCssUrlRefsAux fuel capAfter.2
      | none => extractCssUrlRefsAux fuel rest
    else extractCssUrlRefsAux fuel rest

/-- Deduplicate keeping first occurrences (model of
`Array.from(new Set(...))`, which preserves insertion order). -/
def dedupKeepFirstAux : List String → List String → List String
  | _, [] => []
  | seen, a :: rest =>
    if seen.contains a then dedupKeepFirstAux seen rest
    else a :: dedupKeepFirstAux (a :: seen) rest

/-- `Array.from(new Set(Array.from(s.matchAll(...), m => m[1])))`: the
deduplicated list of captured `url(...)` references of a stylesheet. -/
def extractCssUrlRefs (s : String) : List String :=
  dedupKeepFirstAux [] ((extractCssUrlRefsAux s.data.length s.data).map String.mk)

/-! ## embedCssUrls -/

/-- A sub-resource fetch response as consumed by `embedCssUrls`: HTTP
status, the `content-type` header (`none` when absent) and the body bytes. -/
structure SubResp where
  status : Nat
  mime : Option String
  body : List Nat
deriving DecidableEq, Repr

/-- JS template interpolation of the possibly-null `content-type` header:
`null` prints as the text `null`. -/
def mimeString : Option String → String
  | some t => t
  | none => "null"

/-- The per-reference loop of `embedCssUrls`: skip references starting with
`#`; resolve relative references (those not starting with `http`) against
the stylesheet URL via the external `resolve` collaborator (`new URL(rel,
base).href`); fetch via `fetchSuccess` (the `oracle` maps a URL to `none`
for a rejected fetch); then `replaceAll` the literal `url(<ref>)` text with
the inlined `data:` URI. -/
def embedCssUrlsGo (resolve : String → String → String)
    (oracle : String → Option SubResp) (url : String) :
    List String → String → Except FetchErr String
  | [], s => .ok s
  | r :: rs, s =>
    if jsStartsWith r "#" then embedCssUrlsGo resolve oracle url rs s
    else
      let normalizedUrl := if jsStartsWith r "http" then r else resolve r url
      match oracle normalizedUrl with
      | none => .error .transport
      | some resp =>
        if resOk resp.status then
          embedCssUrlsGo resolve oracle url rs
            (strReplaceAll s ("url(" ++ r ++ ")")
              ("url(data:" ++ mimeString resp.mime ++ ";base64," ++
                String.mk (base64Encode resp.body) ++ ")"))
        else .error (.badStatus resp.status)

/-- Models `embedCssUrls(url, contents)` from src/main.ts, on the decoded
text of the stylesheet. -/
def embedCssUrls (resolve : String → String → String)
    (oracle : String → Option SubResp) (url : String) (s : String) :
    Except FetchErr String :=
  embedCssUrlsGo resolve oracle url (extractCssUrlRefs s) s

/-! ## Concrete instances used by witnesses and counterexamples -/

/-- A concrete stand-in for the external MD5-hex digest primitive (constant,
32 hex characters), used to instantiate theorems at concrete inputs. -/
def md5Stub : List Nat → String := fun _ => "00000000000000000000000000000000"

/-- A filesystem in which every directory listing fails with `NotFound`
(an empty, never-populated output directory). -/
def fsNotFound : String → Except String (List String) := fun _ => .error "NotFound"

/-- A filesystem whose every directory contains one previously cached
fingerprinted stylesheet for logical name `main`. -/
def fsMainCached : String → Except String (List String) :=
  fun _ => .ok ["main-aaaaaaaaaaaaaaaaaaaaaaaaaaaaaaaa.css"]

/-- A filesystem whose every directory contains one previously cached
fingerprinted stylesheet for logical name `foo`. -/
def fsFooCached : String → Except String (List String) :=
  fun _ => .ok ["foo-0123456789abcdef0123456789abcdef.css"]

/-- A concrete stand-in for the external URL resolver `new URL(rel, base)`:
resolves any relative reference against the stylesheet directory. -/
def exResolve : String → String → String :=
  fun rel _ => "https://papunika.com/map/" ++ rel

/-- A stub network for the CSS-inlining example: a 200 `image/png` response
for the resolved `foo.png`, rejection everywhere else. -/
def exOracle : String → Option SubResp :=
  fun u =>
    if u = "https://papunika.com/map/foo.png" then
      some ⟨200, some "image/png", [137, 80, 78, 71]⟩
    else none

/-! ## Helper lemmas -/

/-- Unfolding of the Cache Index lookup when the listing succeeds and both
the logical name and the extension are non-empty (no overload
renormalisation fires): it is a first-match search with
`matchesCachedName`. -/
theorem findExistingCachedFile_ok (fs : String → Except String (List String))
    (dir name ext : String) (files : List String) (hn : name ≠ "")
    (he : ext ≠ "") (hfs : fs dir = .ok files) :
    findExistingCachedFile fs dir (some name) (some ext)
      = (files.find? (fun f => matchesCachedName name ext f), false) := by
  simp [findExistingCachedFile, hn, he, hfs]

/-- If a string starts with `p`, so does any right-extension of it. -/
theorem jsStartsWith_append_left (p s t : String)
    (h : jsStartsWith s p = true) : jsStartsWith (s ++ t) p = true := by
  unfold jsStartsWith at h ⊢
  rw [String.data_append]
  exact List.isPrefixOf_iff_prefix.mpr
    ((List.isPrefixOf_iff_prefix.mp h).trans (List.prefix_append _ _))

/-- A string starts with itself followed by anything. -/
theorem jsStartsWith_append_self (p t : String) :
    jsStartsWith (p ++ t) p = true := by
  unfold jsStartsWith
  rw [String.data_append]
  exact List.isPrefixOf_iff_prefix.mpr (List.prefix_append _ _)

/-- Number of tile URLs enumerated by `downloadTiles`: the sum of `4 ^ z`
over the zoom levels `0 .. maxZoom - 1`. -/
theorem downloadTilesUrls_length (u : Nat → Nat → Nat → String) (m : Nat) :
    (downloadTilesUrls u m).length = ((List.range m).map (fun z => 4 ^ z)).sum := by
  unfold downloadTilesUrls
  induction m with
  | zero => rfl
  | succ n ih =>
    rw [List.range_succ, List.flatMap_append, List.length_append, ih,
      List.map_append, List.sum_append]
    congr 1
    simp [List.length_flatMap, Function.comp_def]
    rw [← Nat.mul_pow]

/-- Membership in the tile URL enumeration: exactly the images of triples
`(z, x, y)` with `z < maxZoom`, `x < 2 ^ z`, `y < 2 ^ z`. -/
theorem downloadTilesUrls_mem (u : Nat → Nat → Nat → String) (m : Nat)
    (s : String) :
    s ∈ downloadTilesUrls u m ↔
      ∃ z x y, z < m ∧ x < 2 ^ z ∧ y < 2 ^ z ∧ s = u z x y := by
  unfold downloadTilesUrls
  simp only [List.mem_flatMap, List.mem_map, List.mem_range]
  constructor
  · rintro ⟨z, hz, x, hx, y, hy, he⟩
    exact ⟨z, x, y, hz, hx, hy, he.symm⟩
  · rintro ⟨z, x, y, hz, hx, hy, he⟩
    exact ⟨z, hz, x, hx, y, hy, he.symm⟩

/-- Membership in the zone tile URLs enumerated by the main flow. -/
theorem mainZoneTileUrls_mem (args ids : List String) (u : String) :
    u ∈ mainZoneTileUrls args ids ↔
      (shouldDownloadTiles args = true ∧ shouldDownloadZones args = true ∧
        ∃ id ∈ ids, u ∈ downloadTilesUrls (zoneTileUrl id) 4) := by
  unfold mainZoneTileUrls
  by_cases hz : shouldDownloadZones args = true
  · by_cases ht : shouldDownloadTiles args = true
    · simp [hz, ht, List.mem_flatMap]
    · simp [hz, ht, List.mem_flatMap]
  · simp [hz]

/-- Claim C4: `findExistingCachedFile(dir, logicalName, extension)` returns
a filename from the directory exactly when it equals
`logicalName + extension` or is a fingerprinted name (prefix `logicalName`,
suffix `extension`, total length `len(logicalName) + len(extension) + 33`);
a directory containing `foo-<32 hex>.css` answers the lookup for `foo` /
`.css` with that file, and the lookup for `foobar` with nothing. -/
theorem c4_cache_index_matching :
    (∀ (fs : String → Except String (List String)) (dir name ext f : String)
        (files : List String), fs dir = .ok files → name ≠ "" → ext ≠ "" →
        (findExistingCachedFile fs dir (some name) (some ext)).1 = some f →
        f ∈ files ∧ matchesCachedName name ext f = true) ∧
    (∀ (fs : String → Except String (List String)) (dir name ext : String)
        (files : List String), fs dir = .ok files → name ≠ "" → ext ≠ "" →
        (∃ f ∈ files, matchesCachedName name ext f = true) →
        ∃ g, (findExistingCachedFile fs dir (some name) (some ext)).1 = some g) ∧
    (∀ (name ext f : String), matchesCachedName name ext f = true ↔
        (f = name ++ ext ∨ (jsStartsWith f name = true ∧ jsEndsWith f ext = true ∧
          f.length = name.length + ext.length + 33))) ∧
    (findExistingCachedFile fsFooCached "static/css" (some "foo") (some ".css")).1
      = some "foo-0123456789abcdef0123456789abcdef.css" ∧
    (findExistingCachedFile fsFooCached "static/css" (some "foobar") (some ".css")).1
      = none := by
  refine ⟨?_, ?_, ?_, by decide, by decide⟩
  · intro fs dir name ext f files hfs hn he hfind
    rw [findExistingCachedFile_ok fs dir name ext files hn he hfs] at hfind
    exact ⟨List.mem_of_find?_eq_some hfind, List.find?_some hfind⟩
  · intro fs dir name ext files hfs hn he hex
    rw [findExistingCachedFile_ok fs dir name ext files hn he hfs]
    obtain ⟨f, hf, hm⟩ := hex
    cases hfind : files.find? (fun f => matchesCachedName name ext f) with
    | some g => exact ⟨g, rfl⟩
    | none => exact absurd hm (List.find?_eq_none.mp hfind f hf)
  · intro name ext f
    simp [matchesCachedName, Bool.or_eq_true, Bool.and_eq_true, beq_iff_eq,
      and_assoc]

/-- Witness for C4 at a concrete input. -/
theorem c4_witness :
    fsFooCached "static/css" = .ok ["foo-0123456789abcdef0123456789abcdef.css"] ∧
    ("foo" : String) ≠ "" ∧ (".css" : String) ≠ "" ∧
    (findExistingCachedFile fsFooCached "static/css" (some "foo") (some ".css")).1
      = some "foo-0123456789abcdef0123456789abcdef.css" ∧
    "foo-0123456789abcdef0123456789abcdef.css"
      ∈ ["foo-0123456789abcdef0123456789abcdef.css"] ∧
    matchesCachedName "foo" ".css" "foo-0123456789abcdef0123456789abcdef.css"
      = true :=
  ⟨rfl, by decide, by decide, by decide,
    (c4_cache_index_matching.1 fsFooCached "static/css" "foo" ".css"
      "foo-0123456789abcdef0123456789abcdef.css"
      ["foo-0123456789abcdef0123456789abcdef.css"] rfl (by decide) (by decide)
      (by decide)).1,
    (c4_cache_index_matching.1 fsFooCached "static/css" "foo" ".css"
      "foo-0123456789abcdef0123456789abcdef.css"
      ["foo-0123456789abcdef0123456789abcdef.css"] rfl (by decide) (by decide)
      (by decide)).2⟩

/-- Claim C8: the Cache Index lookup never raises — a `NotFound`
enumeration failure (missing directory) yields "no cached copy" with no
warning, `PermissionDenied` likewise, and any other enumeration failure
yields "no cached copy" with a warning; in every failure case the lookup
returns `none` (fails open toward re-fetching). -/
theorem c8_cache_index_fails_open :
    (∀ (errName dir : String) (name ext : Option String),
      (findExistingCachedFile (fun _ => .error errName) dir name ext).1 = none) ∧
    (∀ (dir : String) (name ext : Option String),
      (findExistingCachedFile (fun _ => .error "NotFound") dir name ext).2 = false) ∧
    (∀ (dir : String) (name ext : Option String),
      (findExistingCachedFile (fun _ => .error "PermissionDenied") dir name ext).2
        = false) ∧
    (∀ (errName dir : String) (name ext : Option String),
      errName ≠ "NotFound" → errName ≠ "PermissionDenied" →
      (findExistingCachedFile (fun _ => .error errName) dir name ext).2 = true) := by
  refine ⟨?_, ?_, ?_, ?_⟩
  · intro errName dir name ext; simp [findExistingCachedFile]
  · intro dir name ext; simp [findExistingCachedFile]
  · intro dir name ext; simp [findExistingCachedFile]
  · intro errName dir name ext h1 h2; simp [findExistingCachedFile, h1, h2]

/-- Witness for C8 at a concrete input (a `Busy` enumeration failure). -/
theorem c8_witness :
    ("Busy" : String) ≠ "NotFound" ∧ ("Busy" : String) ≠ "PermissionDenied" ∧
    (findExistingCachedFile (fun _ => .error "Busy") "mirror/static/css"
      (some "main") (some ".css")).1 = none ∧
    (findExistingCachedFile (fun _ => .error "Busy") "mirror/static/css"
      (some "main") (some ".css")).2 = true :=
  ⟨by decide, by decide,
    c8_cache_index_fails_open.1 "Busy" "mirror/static/css" (some "main")
      (some ".css"),
    c8_cache_index_fails_open.2.2.2 "Busy" "mirror/static/css" (some "main")
      (some ".css") (by decide) (by decide)⟩

/-- Claim C5: `downloadTiles(url, maxZoom)` enumerates, for each zoom level
`z` starting at 0, an `N × N` grid with `N = 2 ^ z`; the total count is the
sum of `4 ^ z` over the enumerated zoom levels, every generated URL is
`url z x y` with `z < maxZoom`, `x < 2 ^ z`, `y < 2 ^ z`, and `maxZoom = 2`
yields exactly 5 tile URLs. -/
theorem c5_tile_enumeration :
    (∀ (u : Nat → Nat → Nat → String) (m : Nat),
      (downloadTilesUrls u m).length = ((List.range m).map (fun z => 4 ^ z)).sum) ∧
    (∀ (u : Nat → Nat → Nat → String) (m : Nat) (s : String),
      s ∈ downloadTilesUrls u m ↔
        ∃ z x y, z < m ∧ x < 2 ^ z ∧ y < 2 ^ z ∧ s = u z x y) ∧
    (downloadTilesUrls overworldTileUrl 2).length = 5 :=
  ⟨downloadTilesUrls_length, downloadTilesUrls_mem,
    by rw [downloadTilesUrls_length]; rfl⟩

/-- Witness for C5 at a concrete input. -/
theorem c5_witness :
    overworldTileUrl 1 0 1 ∈ downloadTilesUrls overworldTileUrl 2 :=
  (c5_tile_enumeration.2.1 overworldTileUrl 2 (overworldTileUrl 1 0 1)).mpr
    ⟨1, 0, 1, by decide, by decide, by decide, rfl⟩

/-- Nonemptiness of the main flow's zone tile URL enumeration. -/
theorem mainZoneTileUrls_ne_nil (args ids : List String) :
    mainZoneTileUrls args ids ≠ [] ↔
      (args.contains "--no-tiles" = false ∧ args.contains "--no-zones" = false ∧
        ids ≠ []) := by
  constructor
  · intro hne
    obtain ⟨u, hu⟩ := List.exists_mem_of_ne_nil _ hne
    obtain ⟨ht, hz, id, hid, _⟩ := (mainZoneTileUrls_mem args ids u).mp hu
    refine ⟨?_, ?_, ?_⟩
    · simpa [shouldDownloadTiles] using ht
    · simpa [shouldDownloadZones] using hz
    · intro h
      rw [h] at hid
      exact absurd hid (List.not_mem_nil id)
  · rintro ⟨ht, hz, hids⟩
    obtain ⟨id, hid⟩ := List.exists_mem_of_ne_nil _ hids
    intro hnil
    have hmem : zoneTileUrl id 0 0 0 ∈ mainZoneTileUrls args ids :=
      (mainZoneTileUrls_mem args ids _).mpr
        ⟨by unfold shouldDownloadTiles; rw [ht]; rfl,
          by unfold shouldDownloadZones; rw [hz]; rfl,
          id, hid,
          (downloadTilesUrls_mem _ 4 _).mpr
            ⟨0, 0, 0, by decide, by decide, by decide, rfl⟩⟩
    rw [hnil] at hmem
    exact absurd hmem (List.not_mem_nil _)

/-- Claim C10: per-zone tile pyramids are enumerated exactly when both the
tiles toggle and the zones toggle are enabled (neither `--no-tiles` nor
`--no-zones` present), while the overworld pyramid depends only on the
tiles toggle. -/
theorem c10_zone_tiles_require_both_toggles :
    (∀ (args ids : List String) (u : String),
      u ∈ mainZoneTileUrls args ids ↔
        (shouldDownloadTiles args = true ∧ shouldDownloadZones args = true ∧
          ∃ id ∈ ids, u ∈ downloadTilesUrls (zoneTileUrl id) 4)) ∧
    (∀ (args ids : List String),
      mainZoneTileUrls args ids ≠ [] ↔
        (args.contains "--no-tiles" = false ∧ args.contains "--no-zones" = false ∧
          ids ≠ [])) ∧
    (∀ args : List String, mainOverworldTileUrls args =
      if args.contains "--no-tiles" = false then downloadTilesUrls overworldTileUrl 6
      else []) := by
  refine ⟨mainZoneTileUrls_mem, mainZoneTileUrls_ne_nil, ?_⟩
  intro args
  unfold mainOverworldTileUrls shouldDownloadTiles
  by_cases h : args.contains "--no-tiles"
  · simp [h]
  · simp [h]

/-- Witness for C10 at concrete inputs: with `--no-zones` no zone tile is
enumerated even though tiles are enabled. -/
theorem c10_witness :
    mainZoneTileUrls ["--no-zones"] ["1"] = [] ∧
    mainOverworldTileUrls ["--no-zones"]
      = downloadTilesUrls overworldTileUrl 6 := by
  constructor
  · by_contra h
    have := (c10_zone_tiles_require_both_toggles.2.1 ["--no-zones"] ["1"]).mp h
    simp at this
  · have := c10_zone_tiles_require_both_toggles.2.2 ["--no-zones"]
    rw [this]
    rfl

/-- Counterexample for C1: even in the second-run configuration (cache
reuse enabled, no `--refresh`, every lookup satisfied by the cache),
`fetchRootPage` issues a network request — it consults no cache and takes
no configuration input at all, so on the concrete trace whose first
response is an HTTP 200 the run performs one fetch, not zero; this refutes
"no code path, including fetching the root HTML document, issues a network
request on the second run". -/
theorem c1_root_refetch_counterexample :
    fetchRootPageRun [FetchOutcome.resp 200 [60, 104]] = some ([60, 104], 1) ∧
    (1 : Nat) ≠ 0 := by
  exact ⟨rfl, by decide⟩

/-- Claim C1 (amended): with cache reuse enabled, `--refresh` unset and the
Cache Index satisfying the lookup, `cacheResourceFile` returns the cached
path with zero fetches and zero writes, and `tryPublicFetchOrCached`
likewise reuses the cached file with zero fetches and zero writes; but the
root HTML document is re-fetched on every run — any completed
`fetchRootPage` run performs at least one fetch. -/
theorem c1_cached_lookups_no_fetch_but_root_refetched :
    (∀ (md5hex : List Nat → String) (fs : String → Except String (List String))
        (outdir url pfx e : String)
        (mutate : Option (String → List Nat → Option (List Nat)))
        (trace : List CacheAttempt),
      (findExistingCachedFile fs (pathJoin outdir pfx) (some (cacheFilename url))
        (some (cacheExtname url))).1 = some e →
      cacheResourceFile md5hex ⟨true, false⟩ fs outdir url pfx mutate trace
        = ⟨some (pathJoin pfx e), 0, []⟩) ∧
    (∀ (fs : String → Except String (List String)) (outdir url : String)
        (parse : Bool) (trace : List FetchOutcome) (e : String),
      jsStartsWith url origin = true →
      (findExistingCachedFile fs (tryFilepath outdir url) none none).1 = some e →
      tryPublicFetchOrCached ⟨true, false⟩ fs outdir url parse trace
        = ⟨.reusedCache, 0, [], 1, if parse then 1 else 0⟩) ∧
    (∀ (trace : List FetchOutcome) (body : List Nat) (n : Nat),
      fetchRootPageRun trace = some (body, n) → 1 ≤ n) := by
  refine ⟨?_, ?_, ?_⟩
  · intro md5hex fs outdir url pfx e mutate trace h
    simp [cacheResourceFile, h]
  · intro fs outdir url parse trace e hu h
    simp [tryPublicFetchOrCached, hu, h]
  · intro trace
    induction trace with
    | nil => intro body n h; exact absurd h (by simp [fetchRootPageRun])
    | cons f rest ih =>
      intro body n h
      unfold fetchRootPageRun at h
      cases hf : fetchSuccess f with
      | ok sb =>
        rw [hf] at h
        simp at h
        omega
      | error e =>
        rw [hf] at h
        simp at h
        obtain ⟨r, hr, hb, hn⟩ := h
        omega

/-- Witness for C1 at a concrete input: a pre-populated cache directory
satisfies the stylesheet lookup with zero fetches. -/
theorem c1_witness :
    (findExistingCachedFile fsMainCached (pathJoin "mirror" "static/css")
      (some (cacheFilename "https://papunika.com/map/theme/css/main.css"))
      (some (cacheExtname "https://papunika.com/map/theme/css/main.css"))).1
        = some "main-aaaaaaaaaaaaaaaaaaaaaaaaaaaaaaaa.css" ∧
    cacheResourceFile md5Stub ⟨true, false⟩ fsMainCached "mirror"
      "https://papunika.com/map/theme/css/main.css" "static/css" none []
        = ⟨some (pathJoin "static/css" "main-aaaaaaaaaaaaaaaaaaaaaaaaaaaaaaaa.css"),
            0, []⟩ :=
  ⟨by decide,
    c1_cached_lookups_no_fetch_but_root_refetched.1 md5Stub fsMainCached "mirror"
      "https://papunika.com/map/theme/css/main.css" "static/css"
      "main-aaaaaaaaaaaaaaaaaaaaaaaaaaaaaaaa.css" none [] (by decide)⟩

/-- Counterexample for C2: in `cacheResourceFile` a 404 is retried.  With no
cached copy and the trace 404-then-200, the run performs two fetch calls —
the second is the retry after the 404 — and then caches the resource,
instead of skipping it; this refutes "an upstream HTTP 404 response is a
terminal outcome that is never retried ... in both ... tryPublicFetchOrCached
and ... cacheResourceFile". -/
theorem c2_cache_resource_retries_404_counterexample :
    (cacheResourceFile md5Stub ⟨false, false⟩ fsNotFound "mirror"
      "https://papunika.com/map/theme/css/main.css" "static/css" none
      [⟨.resp 404 [], true⟩, ⟨.resp 200 [104, 105], true⟩]).fetches = 2 ∧
    (2 : Nat) ≠ 1 := by
  exact ⟨by decide, by decide⟩

/-- Claim C2 (amended): an upstream 404 is terminal and never retried in
`tryPublicFetchOrCached` — the resource is skipped with a warning and the
call returns, whatever the rest of the trace; in `cacheResourceFile` a 404
is not special-cased: with no cached copy it is retried like any other
failure, and with a cached copy found the stale path is returned. -/
theorem c2_notfound_terminal_in_direct_path_only :
    (∀ (existing : Option String) (filepath : String) (parse : Bool)
        (body : List Nat) (rest : List FetchOutcome),
      tryLoop existing filepath parse (.resp 404 body :: rest)
        = ⟨.notFoundSkipped, 1, [], 0, 0⟩) ∧
    (∀ (md5hex : List Nat → String) (pfx writedir filename ename url : String)
        (mutate : Option (String → List Nat → Option (List Nat)))
        (body : List Nat) (fsOk : Bool) (rest : List CacheAttempt),
      cacheLoop md5hex none pfx writedir filename ename url mutate
          (⟨.resp 404 body, fsOk⟩ :: rest)
        = (let r := cacheLoop md5hex none pfx writedir filename ename url mutate rest
           ⟨r.result, r.fetches + 1, r.writes⟩)) ∧
    (∀ (md5hex : List Nat → String) (e pfx writedir filename ename url : String)
        (mutate : Option (String → List Nat → Option (List Nat)))
        (body : List Nat) (fsOk : Bool) (rest : List CacheAttempt),
      cacheLoop md5hex (some e) pfx writedir filename ename url mutate
          (⟨.resp 404 body, fsOk⟩ :: rest)
        = ⟨some (pathJoin pfx e), 1, []⟩) := by
  refine ⟨?_, ?_, ?_⟩
  · intro existing filepath parse body rest
    simp [tryLoop, fetchSuccess, resOk, isNotFound404]
  · intro md5hex pfx writedir filename ename url mutate body fsOk rest
    simp [cacheLoop, runCacheAttempt, fetchSuccess, resOk]
  · intro md5hex e pfx writedir filename ename url mutate body fsOk rest
    simp [cacheLoop, runCacheAttempt, fetchSuccess, resOk]

/-- Witness for C2 at a concrete input: the direct-mirror path skips a 404
after exactly one fetch. -/
theorem c2_witness :
    tryLoop none "mirror/assets/ghost.png" false [.resp 404 [], .resp 200 [1]]
      = ⟨.notFoundSkipped, 1, [], 0, 0⟩ :=
  c2_notfound_terminal_in_direct_path_only.1 none "mirror/assets/ghost.png"
    false [] [.resp 200 [1]]

/-- Claim C3: when the Cache Index found an existing cached copy before the
fetch attempt and a refresh was requested, any failure of the
fetch-transform-write attempt makes `cacheResourceFile` return the stale
cached copy's path, with exactly the one fetch performed — no retry and no
propagated failure, whatever the rest of the trace. -/
theorem c3_stale_fallback_on_refresh_failure :
    ∀ (md5hex : List Nat → String) (fs : String → Except String (List String))
      (outdir url pfx e : String)
      (mutate : Option (String → List Nat → Option (List Nat)))
      (a : CacheAttempt) (rest : List CacheAttempt) (err : FetchErr),
      (findExistingCachedFile fs (pathJoin outdir pfx) (some (cacheFilename url))
        (some (cacheExtname url))).1 = some e →
      runCacheAttempt mutate url a = .error err →
      cacheResourceFile md5hex ⟨true, true⟩ fs outdir url pfx mutate (a :: rest)
        = ⟨some (pathJoin pfx e), 1, []⟩ := by
  intro md5hex fs outdir url pfx e mutate a rest err h ha
  simp [cacheResourceFile, h, cacheLoop, ha]

/-- Witness for C3 at a concrete input: a transport error during a
refreshed re-fetch falls back to the stale cached stylesheet. -/
theorem c3_witness :
    (findExistingCachedFile fsMainCached (pathJoin "mirror" "static/css")
      (some (cacheFilename "https://papunika.com/map/theme/css/main.css"))
      (some (cacheExtname "https://papunika.com/map/theme/css/main.css"))).1
        = some "main-aaaaaaaaaaaaaaaaaaaaaaaaaaaaaaaa.css" ∧
    runCacheAttempt none "https://papunika.com/map/theme/css/main.css"
      ⟨.transportError, true⟩ = .error .transport ∧
    cacheResourceFile md5Stub ⟨true, true⟩ fsMainCached "mirror"
      "https://papunika.com/map/theme/css/main.css" "static/css" none
      [⟨.transportError, true⟩, ⟨.resp 200 [1], true⟩]
        = ⟨some (pathJoin "static/css" "main-aaaaaaaaaaaaaaaaaaaaaaaaaaaaaaaa.css"),
            1, []⟩ :=
  ⟨by decide, rfl,
    c3_stale_fallback_on_refresh_failure md5Stub fsMainCached "mirror"
      "https://papunika.com/map/theme/css/main.css" "static/css"
      "main-aaaaaaaaaaaaaaaaaaaaaaaaaaaaaaaa.css" none ⟨.transportError, true⟩
      [⟨.resp 200 [1], true⟩] .transport (by decide) rfl⟩

/-- Every file written by the retry loop of `cacheResourceFile` is written
at the fingerprinted path built from the digest of exactly its own content. -/
theorem cacheLoop_writes_fingerprinted (md5hex : List Nat → String)
    (existing : Option String) (pfx writedir filename ename url : String)
    (mutate : Option (String → List Nat → Option (List Nat))) :
    ∀ (trace : List CacheAttempt) (wp : String) (c : List Nat),
      (wp, c) ∈ (cacheLoop md5hex existing pfx writedir filename ename url
        mutate trace).writes →
      wp = pathJoin writedir (filename ++ "-" ++ md5hex c ++ ename) := by
  intro trace
  induction trace with
  | nil => intro wp c h; exact absurd h (by simp [cacheLoop])
  | cons a rest ih =>
    intro wp c h
    simp only [cacheLoop] at h
    cases ha : runCacheAttempt mutate url a with
    | ok contents =>
      rw [ha] at h
      simp at h
      rw [h.1, h.2]
    | error e =>
      rw [ha] at h
      cases existing with
      | some e2 => simp at h
      | none => exact ih wp c (by simpa using h)

/-- Claim C6: for every artifact written by `cacheResourceFile`, the
fingerprint embedded in its filename is the digest of exactly the bytes
written to that file (the content after the optional transform), so
recomputing the fingerprint over the file content equals the fingerprint
in its name. -/
theorem c6_fingerprint_matches_written_content :
    ∀ (md5hex : List Nat → String) (cfg : MirrorConfig)
      (fs : String → Except String (List String)) (outdir url pfx : String)
      (mutate : Option (String → List Nat → Option (List Nat)))
      (trace : List CacheAttempt) (wp : String) (c : List Nat),
      (wp, c) ∈ (cacheResourceFile md5hex cfg fs outdir url pfx mutate trace).writes →
      wp = pathJoin (pathJoin outdir pfx)
        (cacheFilename url ++ "-" ++ md5hex c ++ cacheExtname url) := by
  intro md5hex cfg fs outdir url pfx mutate trace wp c h
  simp only [cacheResourceFile] at h
  cases hE : (if cfg.canReuseCache then
      (findExistingCachedFile fs (pathJoin outdir pfx) (some (cacheFilename url))
        (some (cacheExtname url))).1
    else none) with
  | none =>
    rw [hE] at h
    exact cacheLoop_writes_fingerprinted md5hex none pfx (pathJoin outdir pfx)
      (cacheFilename url) (cacheExtname url) url mutate trace wp c h
  | some e =>
    rw [hE] at h
    cases hr : cfg.refresh with
    | false =>
      rw [hr] at h
      simp at h
    | true =>
      rw [hr] at h
      exact cacheLoop_writes_fingerprinted md5hex (some e) pfx (pathJoin outdir pfx)
        (cacheFilename url) (cacheExtname url) url mutate trace wp c h

/-- Witness for C6 at a concrete input: the file cached from a 200 response
with body `[1, 2]` carries the digest of `[1, 2]` in its name. -/
theorem c6_witness :
    ("mirror/static/css/main-00000000000000000000000000000000.css", [1, 2])
      ∈ (cacheResourceFile md5Stub ⟨false, false⟩ fsNotFound "mirror"
          "https://papunika.com/map/theme/css/main.css" "static/css" none
          [⟨.resp 200 [1, 2], true⟩]).writes ∧
    ("mirror/static/css/main-00000000000000000000000000000000.css" : String)
      = pathJoin (pathJoin "mirror" "static/css")
          (cacheFilename "https://papunika.com/map/theme/css/main.css" ++ "-" ++
            md5Stub [1, 2] ++
            cacheExtname "https://papunika.com/map/theme/css/main.css") :=
  ⟨by decide,
    c6_fingerprint_matches_written_content md5Stub ⟨false, false⟩ fsNotFound
      "mirror" "https://papunika.com/map/theme/css/main.css" "static/css" none
      [⟨.resp 200 [1, 2], true⟩]
      "mirror/static/css/main-00000000000000000000000000000000.css" [1, 2]
      (by decide)⟩

/-- Claim C9: for every URL not starting with the origin
`https://papunika.com`, `tryPublicFetchOrCached` throws `bad url` before
any network request or filesystem access, for every cache-reuse, refresh
and parse setting; and the URL families the enumerators feed to it
(assets, overworld tiles, zone tiles) all start with the origin. -/
theorem c9_bad_url_guard :
    (∀ (cfg : MirrorConfig) (fs : String → Except String (List String))
        (outdir url : String) (parse : Bool) (trace : List FetchOutcome),
      jsStartsWith url origin = false →
      tryPublicFetchOrCached cfg fs outdir url parse trace
        = ⟨.badUrl, 0, [], 0, 0⟩) ∧
    (∀ a : String, jsStartsWith (assetUrl a) origin = true) ∧
    (∀ z x y : Nat, jsStartsWith (overworldTileUrl z x y) origin = true) ∧
    (∀ (id : String) (z x y : Nat),
      jsStartsWith (zoneTileUrl id z x y) origin = true) := by
  refine ⟨?_, ?_, ?_, ?_⟩
  · intro cfg fs outdir url parse trace h
    simp [tryPublicFetchOrCached, h]
  · intro a
    unfold assetUrl rootUrl
    rw [String.append_assoc]
    apply jsStartsWith_append_left
    apply jsStartsWith_append_left
    exact jsStartsWith_append_self origin ""
  · intro z x y
    unfold overworldTileUrl
    apply jsStartsWith_append_left
    apply jsStartsWith_append_left
    apply jsStartsWith_append_left
    apply jsStartsWith_append_left
    apply jsStartsWith_append_left
    rw [show ("https://papunika.com/map/public/tiles/overworld/" : String)
      = origin ++ "/map/public/tiles/overworld/" from by decide]
    exact jsStartsWith_append_self origin _
  · intro id z x y
    unfold zoneTileUrl rootUrl
    apply jsStartsWith_append_left
    apply jsStartsWith_append_left
    apply jsStartsWith_append_left
    apply jsStartsWith_append_left
    apply jsStartsWith_append_left
    apply jsStartsWith_append_left
    apply jsStartsWith_append_left
    rw [String.append_assoc]
    exact jsStartsWith_append_self origin _

/-- Witness for C9 at a concrete input: a foreign origin is rejected with
no effects, for every configuration setting value shown. -/
theorem c9_witness :
    jsStartsWith "https://example.com/x.png" origin = false ∧
    tryPublicFetchOrCached ⟨true, true⟩ fsMainCached "mirror"
      "https://example.com/x.png" true [.resp 200 [1]]
        = ⟨.badUrl, 0, [], 0, 0⟩ :=
  ⟨by decide,
    c9_bad_url_guard.1 ⟨true, true⟩ fsMainCached "mirror"
      "https://example.com/x.png" true [.resp 200 [1]] (by decide)⟩

/-- The lazy capture returns the accumulator extended by a prefix of the
remaining input. -/
theorem cssLazyCapture_extends :
    ∀ (l acc cap after : List Char), cssLazyCapture l acc = some (cap, after) →
      ∃ p, cap = acc ++ p ∧ p <+: l := by
  intro l
  induction l with
  | nil =>
    intro acc cap after h
    simp [cssLazyCapture] at h
  | cons c rest ih =>
    intro acc cap after h
    simp only [cssLazyCapture] at h
    by_cases hd : jsDotChar c = true
    · rw [if_pos hd] at h
      cases hc : cssCloseAt rest with
      | some a2 =>
        rw [hc] at h
        simp at h
        exact ⟨[c], h.1.symm, ⟨rest, rfl⟩⟩
      | none =>
        rw [hc] at h
        obtain ⟨p, hp1, hp2⟩ := ih (acc ++ [c]) cap after h
        obtain ⟨t, ht⟩ := hp2
        refine ⟨c :: p, ?_, ⟨t, ?_⟩⟩
        · rw [hp1, List.append_assoc]
          rfl
        · rw [List.cons_append, ht]
    · rw [if_neg hd] at h
      simp at h

/-- A capture produced behind the `(?!data:)` lookahead cannot start with
`data:`. -/
theorem cssTryFrom_no_data (l cap after : List Char)
    (h : (if startsWithData l then none else cssLazyCapture l [])
      = some (cap, after)) :
    startsWithData cap = false := by
  by_cases hd : startsWithData l = true
  · rw [if_pos hd] at h
    simp at h
  · rw [if_neg hd] at h
    obtain ⟨p, hp1, hp2⟩ := cssLazyCapture_extends l [] cap after h
    rw [hp1, List.nil_append]
    by_contra hc
    simp only [Bool.not_eq_false] at hc
    apply hd
    unfold startsWithData at hc ⊢
    exact List.isPrefixOf_iff_prefix.mpr
      ((List.isPrefixOf_iff_prefix.mp hc).trans hp2)

/-- No capture of the regex tail starts with `data:`, in either
backtracking alternative. -/
theorem cssMatchAfterParen_no_data (l cap after : List Char)
    (h : cssMatchAfterParen l = some (cap, after)) :
    startsWithData cap = false := by
  cases l with
  | nil => simp [cssMatchAfterParen] at h
  | cons c rest =>
    simp only [cssMatchAfterParen] at h
    by_cases hq : isCssQuote c = true
    · rw [if_pos hq] at h
      cases hA : (if startsWithData rest then none else cssLazyCapture rest []) with
      | some r =>
        rw [hA] at h
        simp at h
        exact cssTryFrom_no_data rest cap after (by rw [hA, h])
      | none =>
        rw [hA] at h
        exact cssTryFrom_no_data (c :: rest) cap after h
    · rw [if_neg hq] at h
      exact cssTryFrom_no_data (c :: rest) cap after h

/-- No capture collected by the global scan starts with `data:`. -/
theorem extractCssUrlRefsAux_no_data :
    ∀ (fuel : Nat) (l cap : List Char), cap ∈ extractCssUrlRefsAux fuel l →
      startsWithData cap = false := by
  intro fuel
  induction fuel with
  | zero =>
    intro l cap h
    cases l with
    | nil => simp [extractCssUrlRefsAux] at h
    | cons c rest => simp [extractCssUrlRefsAux] at h
  | succ n ih =>
    intro l cap h
    cases l with
    | nil => simp [extractCssUrlRefsAux] at h
    | cons c rest =>
      simp only [extractCssUrlRefsAux] at h
      by_cases hu : "url(".data.isPrefixOf (c :: rest) = true
      · rw [if_pos hu] at h
        cases hm : cssMatchAfterParen ((c :: rest).drop 4) with
        | some ca =>
          rw [hm] at h
          rcases List.mem_cons.mp h with h1 | h1
          · rw [h1]
            exact cssMatchAfterParen_no_data ((c :: rest).drop 4) ca.1 ca.2
              (by rw [hm])
          · exact ih ca.2 cap h1
        | none =>
          rw [hm] at h
          exact ih rest cap h
      · rw [if_neg hu] at h
        exact ih rest cap h

/-- Deduplication only drops elements, never adds them. -/
theorem dedupKeepFirstAux_subset :
    ∀ (l seen : List String) (a : String),
      a ∈ dedupKeepFirstAux seen l → a ∈ l := by
  intro l
  induction l with
  | nil =>
    intro seen a h
    simp [dedupKeepFirstAux] at h
  | cons b rest ih =>
    intro seen a h
    simp only [dedupKeepFirstAux] at h
    by_cases hb : seen.contains b = true
    · rw [if_pos hb] at h
      exact List.mem_cons_of_mem b (ih seen a h)
    · rw [if_neg hb] at h
      rcases List.mem_cons.mp h with h1 | h1
      · rw [h1]
        exact List.mem_cons_self b rest
      · exact List.mem_cons_of_mem b (ih (b :: seen) a h1)

/-- No reference extracted from a stylesheet starts with `data:` — the
model of the regex's negative lookahead. -/
theorem extractCssUrlRefs_no_data (s r : String)
    (h : r ∈ extractCssUrlRefs s) : jsStartsWith r "data:" = false := by
  unfold extractCssUrlRefs at h
  have h2 := dedupKeepFirstAux_subset _ [] r h
  obtain ⟨cap, hcap, hr⟩ := List.mem_map.mp h2
  have h3 := extractCssUrlRefsAux_no_data s.data.length s.data cap hcap
  rw [← hr]
  unfold jsStartsWith
  unfold startsWithData at h3
  exact h3

/-- Claim C7: the CSS embedding transform replaces each non-`data:`,
non-`#` `url(...)` reference with an inlined base64 `data:` URI of the
fetched bytes under the declared media type, resolving relative references
against the stylesheet's own URL; on the concrete example the rewritten
stylesheet contains `url(data:image/png;base64,iVBORw==)` and no longer
contains `url(foo.png)`, references starting with `#` are skipped, and no
extracted reference is a `data:` URI. -/
theorem c7_css_url_inlining :
    (embedCssUrls exResolve exOracle "https://papunika.com/map/style.css"
        "background: url(foo.png);"
      = .ok "background: url(data:image/png;base64,iVBORw==);") ∧
    (strContains "background: url(data:image/png;base64,iVBORw==);"
        "url(data:image/png;base64,iVBORw==)" = true) ∧
    (strContains "background: url(data:image/png;base64,iVBORw==);"
        "url(foo.png)" = false) ∧
    (String.mk (base64Encode [137, 80, 78, 71]) = "iVBORw==") ∧
    (∀ (css r : String), r ∈ extractCssUrlRefs css →
      jsStartsWith r "data:" = false) ∧
    (∀ (resolve : String → String → String) (oracle : String → Option SubResp)
        (url r : String) (rs : List String) (s : String),
      jsStartsWith r "#" = true →
      embedCssUrlsGo resolve oracle url (r :: rs) s
        = embedCssUrlsGo resolve oracle url rs s) := by
  refine ⟨rfl, by decide, by decide, by decide, extractCssUrlRefs_no_data, ?_⟩
  intro resolve oracle url r rs s h
  simp [embedCssUrlsGo, h]

/-- Witness for C7 at concrete inputs: the fragment reference `#frag` is
skipped, and the lookahead fact instantiated on the example stylesheet. -/
theorem c7_witness :
    embedCssUrlsGo exResolve exOracle "https://papunika.com/map/style.css"
      ["#frag"] "x" = embedCssUrlsGo exResolve exOracle
        "https://papunika.com/map/style.css" [] "x" ∧
    jsStartsWith "foo.png" "data:" = false :=
  ⟨c7_css_url_inlining.2.2.2.2.2 exResolve exOracle
      "https://papunika.com/map/style.css" "#frag" [] "x" (by decide),
    c7_css_url_inlining.2.2.2.2.1 "background: url(foo.png);" "foo.png"
      (by decide)⟩
